import Mathlib

/-
Verification development for the UniView EPBv2 backup-report sender
(`send_asset_email.py`).  The Python program reads a list of asset rows,
decides between a FULL and an INCREMENTAL run, selects the rows to report,
writes a CSV, attempts delivery, and persists per-asset state only after a
successful delivery.  The definitions below are a shallow embedding of that
program: timestamps are rational epoch seconds, the JSON state file is an
insertion-ordered association list (mirroring a Python `dict`), and the
outcome of one invocation of `main()` (from the point where the data file
has been parsed) is a pure function of the parsed rows, the prior state,
the wall clock, and the outcome of the delivery attempt.
-/

namespace UniView

/-- Range in which Python's `datetime.fromtimestamp(sec, tz=timezone.utc)`
succeeds: from 0001-01-01T00:00:00 to 9999-12-31T23:59:59.999999 UTC
(approximated at whole-second granularity).  Outside this range the call
raises, which `_parse_to_utc_datetime` catches and turns into `None`. -/
def fromtimestampValid (s : ℚ) : Bool :=
  decide ((-62135596800 : ℚ) ≤ s ∧ s < 253402300800)

/-- Numeric branch of `_parse_to_utc_datetime` (send_asset_email.py lines
84-91): an `int`/`float` input is taken as epoch seconds unless it is
greater than `1e12`, in which case it is divided by `1000.0` first; the
resulting seconds value is handed to `datetime.fromtimestamp`, whose
failure yields `None`. -/
def parseNumericTs (x : ℚ) : Option ℚ :=
  let sec := if x > 10 ^ 12 then x / 1000 else x
  if fromtimestampValid sec then some sec else none

/-- Digit-string branch of `_parse_to_utc_datetime` (lines 98-105): a string
of digits denotes a natural number `n`, taken as epoch seconds unless
`n > 1e12`, in which case it is divided by `1000.0` first. -/
def parseDigitStringTs (n : ℕ) : Option ℚ :=
  let sec := if (n : ℚ) > 10 ^ 12 then (n : ℚ) / 1000 else (n : ℚ)
  if fromtimestampValid sec then some sec else none

/-- Normalizer rule as the specification words it: the value is epoch
seconds unless its magnitude (absolute value) exceeds `1e12`, in which case
it is epoch milliseconds.  Kept separate from `parseNumericTs`, which
embeds the code's signed comparison, so the two can be compared. -/
def specMagnitudeTs (x : ℚ) : Option ℚ :=
  let sec := if |x| > 10 ^ 12 then x / 1000 else x
  if fromtimestampValid sec then some sec else none

/-- Substring test on character lists: does `hay` contain `needle` as a
contiguous run?  Models Python's `needle in hay` on strings. -/
def hasSub (needle : List Char) : List Char → Bool
  | [] => needle.isEmpty
  | c :: rest => needle.isPrefixOf (c :: rest) || hasSub needle rest

/-- Python `str.strip()` on the character list: drop whitespace from both
ends. -/
def stripChars (l : List Char) : List Char :=
  ((l.dropWhile Char.isWhitespace).reverse.dropWhile Char.isWhitespace).reverse

/-- Python `s.strip()`. -/
def pyStrip (s : String) : String := ⟨stripChars s.data⟩

/-- Test from `compute_backup_status` lines 145-147: `status_raw` is truthy
(present and non-empty) and `str(status_raw).lower()` contains the
substring "in progress". -/
def statusInProgress (statusRaw : Option String) : Bool :=
  match statusRaw with
  | none => false
  | some s => (s != "") && hasSub "in progress".data (s.data.map Char.toLower)

/-- Embedding of `compute_backup_status` (lines 137-159).  `now` and the
parsed instant `dtUtc` are epoch seconds; `hours` is the age in hours as
computed by `(now - dt_utc).total_seconds() / 3600.0`. -/
def computeBackupStatus (now : ℚ) (statusRaw : Option String) (dtUtc : Option ℚ) : String :=
  if statusInProgress statusRaw then "Warning"
  else
    match dtUtc with
    | some dt =>
      let hours := (now - dt) / 3600
      if hours ≤ 12 then "Success"
      else if 12 < hours ∧ hours ≤ 23 then "Warning"
      else "Failure"
    | none => "Failure"

/-- Classifier as the specification words it: "in progress" (checked first)
gives Warning; otherwise with an instant, Failure when the age exceeds 23
hours, Warning when it is strictly above 12 and at most 23, Success when it
is at most 12 (negative ages included); Failure without an instant. -/
def specClassify (now : ℚ) (statusRaw : Option String) (dtUtc : Option ℚ) : String :=
  if statusInProgress statusRaw then "Warning"
  else
    match dtUtc with
    | some inst =>
      let age := (now - inst) / 3600
      if age > 23 then "Failure"
      else if 12 < age ∧ age ≤ 23 then "Warning"
      else "Success"
    | none => "Failure"

/-- One value of the persisted state mapping: `{"ts": ..., "status": ...}`
as written by `save_state` / read by `load_state` (lines 226-252). -/
structure StateEntry where
  ts : Option ℤ
  status : Option String
deriving DecidableEq

/-- The persisted state: a Python `dict` keyed by asset id, modelled as an
insertion-ordered association list. -/
abbrev StateMap := List (String × StateEntry)

/-- Lookup in the state dict (`state.get(aid)`). -/
def lookupKey : StateMap → String → Option StateEntry
  | [], _ => none
  | (k', v) :: t, k => if k' = k then some v else lookupKey t k

/-- Python `dict` assignment `d[k] = v`: replace in place when the key is
present, append otherwise. -/
def setKey : StateMap → String → StateEntry → StateMap
  | [], k, v => [(k, v)]
  | (k', v') :: t, k, v => if k' = k then (k', v) :: t else (k', v') :: setKey t k v

/-- Key list of the state dict. -/
def keys (st : StateMap) : List String := st.map Prod.fst

/-- Python truthiness test `not bool(state)` used at line 285: the loaded
state is empty. -/
def stateIsEmpty (st : StateMap) : Bool := st.isEmpty

/-- One parsed element of `assets_rows.json`, restricted to the fields
`main` reads: `AssetId`, `AssetName`, `Organization`, `Status`, and the
canonical UTC instant `ts` that `_parse_to_utc_datetime` yields for the raw
`lastSuccessfulBackupTimestamp` value (`none` when that value is absent or
unparseable). -/
structure Row where
  assetId : Option String
  assetName : Option String
  organization : Option String
  statusRaw : Option String
  ts : Option ℚ
deriving DecidableEq

/-- Asset key `str(r.get("AssetId") or "")`: missing or empty id collapses
to the empty string. -/
def rowAid (r : Row) : String := r.assetId.getD ""

/-- Embedding of `_epoch_seconds_or_none` (lines 127-135) applied to the
parsed instant: `int(dt.timestamp())`, i.e. truncation toward zero. -/
def epochSecondsOrNone (ts : Option ℚ) : Option ℤ :=
  ts.map (fun q => q.num / (q.den : ℤ))

/-- Current status string `(r.get("Status") or "").strip()` (lines 321,
403, 415). -/
def rowCurrentStatus (r : Row) : String := pyStrip (r.statusRaw.getD "")

/-- State entry written for a row on success (lines 404-407 and 416-419):
the truncated epoch seconds, and the stripped status or `None` when the
stripped status is empty (`current_status or None`). -/
def rowEntry (r : Row) : StateEntry :=
  { ts := epochSecondsOrNone r.ts
    status := if rowCurrentStatus r = "" then none else some (rowCurrentStatus r) }

/-- One row of the outbound CSV (`_build_csv_rows`, lines 161-180).  The
code renders `Backup Date` as an ISO-8601 string with trailing `Z`; the
model keeps the underlying instant (`none` renders as the empty string). -/
structure CsvRow where
  device : String
  status : String
  backupDate : Option ℚ
  client : String
  job : String
deriving DecidableEq

/-- Embedding of the per-row work of `_build_csv_rows`. -/
def buildCsvRow (now : ℚ) (r : Row) : CsvRow :=
  { device := r.assetName.getD ""
    status := computeBackupStatus now r.statusRaw r.ts
    backupDate := r.ts
    client := r.organization.getD ""
    job := "EPBv2" }

/-- Embedding of `_build_csv_rows` on a row list. -/
def buildCsvRows (now : ℚ) (rs : List Row) : List CsvRow := rs.map (buildCsvRow now)

/-- The `send_flag` computation of the incremental branch of `main`
(lines 317-341): send when the row has a canonical instant that is missing
from, or strictly newer than, the stored one; otherwise when the stripped
current status is non-empty and differs from the stored status (missing
stored status compared as the empty string). -/
def sendFlag (st : StateMap) (r : Row) : Bool :=
  let currentTs := epochSecondsOrNone r.ts
  let currentStatus := rowCurrentStatus r
  let storedTs : Option ℤ :=
    match lookupKey st (rowAid r) with
    | some e => e.ts
    | none => none
  let storedStatus : Option String :=
    match lookupKey st (rowAid r) with
    | some e => e.status
    | none => none
  let tsFlag :=
    match currentTs with
    | some t =>
      match storedTs with
      | some s => decide (t > s)
      | none => true
    | none => false
  tsFlag || ((currentStatus != "") && (currentStatus != storedStatus.getD ""))

/-- Rows the incremental branch selects, in input order (the loop at lines
317-347 appends a CSV row and the asset id exactly when `send_flag`). -/
def incrementalChanged (st : StateMap) (rows : List Row) : List Row :=
  rows.filter (sendFlag st)

/-- State update of a FULL run on success (lines 399-407): starting from
the copy `new_state = dict(state)`, write a fresh entry for every processed
row. -/
def fullStateUpdate (st : StateMap) (rows : List Row) : StateMap :=
  rows.foldl (fun s r => setKey s (rowAid r) (rowEntry r)) st

/-- State update of an INCREMENTAL run on success (lines 409-419): write a
fresh entry for every processed row whose id is in `changed_asset_ids`. -/
def incrStateUpdate (st : StateMap) (rows : List Row) (ids : List String) : StateMap :=
  rows.foldl (fun s r => if ids.contains (rowAid r) then setKey s (rowAid r) (rowEntry r) else s) st

/-- The configuration values `main` consults: `FIRST_RUN_FULL` (line 51)
and `SAMPLE_COUNT` (line 50). -/
structure Config where
  firstRunFull : Bool
  sampleCount : ℤ
deriving DecidableEq

/-- Python slice `rows[:k]`, including the negative-index convention. -/
def pySlice (rows : List Row) (k : ℤ) : List Row :=
  if 0 ≤ k then rows.take k.toNat else rows.take (rows.length - (-k).toNat)

/-- `to_process` (line 278): all rows when `SAMPLE_COUNT == 0`, else the
slice `rows[:SAMPLE_COUNT]`. -/
def toProcessOf (cfg : Config) (rows : List Row) : List Row :=
  if cfg.sampleCount = 0 then rows else pySlice rows cfg.sampleCount

/-- The `is_full` decision (lines 282, 302-305): an initial run with
`FIRST_RUN_FULL` is full; otherwise the run is full exactly when the
current UTC hour is 21. -/
def computeIsFull (firstRunFull : Bool) (initialRun : Bool) (hourUtc : ℕ) : Bool :=
  if initialRun && firstRunFull then true else hourUtc == 21

/-- `rows_for_csv` as assembled at lines 307-347. -/
def rowsForCsvOf (cfg : Config) (rows : List Row) (st : StateMap) (hourUtc : ℕ) (now : ℚ) :
    List CsvRow :=
  let tp := toProcessOf cfg rows
  if computeIsFull cfg.firstRunFull (stateIsEmpty st) hourUtc then buildCsvRows now tp
  else buildCsvRows now (incrementalChanged st tp)

/-- `changed_asset_ids` as assembled at lines 307-347. -/
def changedIdsOf (cfg : Config) (rows : List Row) (st : StateMap) (hourUtc : ℕ) : List String :=
  let tp := toProcessOf cfg rows
  if computeIsFull cfg.firstRunFull (stateIsEmpty st) hourUtc then tp.map rowAid
  else (incrementalChanged st tp).map rowAid

/-- The state passed to `save_state` on success (lines 397-420). -/
def newStateOf (cfg : Config) (rows : List Row) (st : StateMap) (hourUtc : ℕ) : StateMap :=
  let tp := toProcessOf cfg rows
  if computeIsFull cfg.firstRunFull (stateIsEmpty st) hourUtc then fullStateUpdate st tp
  else incrStateUpdate st tp (changedIdsOf cfg rows st hourUtc)

/-- Observable outcome of one invocation of `main`: the return value, the
argument of the `save_state` call when one happened (`none` means the state
file was not rewritten), whether a delivery was attempted, and the CSV rows
and changed ids the run computed. -/
structure RunResult where
  exitCode : ℤ
  savedState : Option StateMap
  sendAttempted : Bool
  csvRows : List CsvRow
  changedIds : List String
deriving DecidableEq

/-- Embedding of `main` (lines 278-441) from the point where the data file
has been parsed into `rows`.  `hourUtc` is `now_utc.hour`, `now` the run
instant in epoch seconds, and `dispatchOk` the outcome of the delivery
attempt (`DRY_RUN` makes it `true`; a raising `_send_email_real` makes it
`false`).  The branches, in source order: the seed-disabled skip (lines
287-290, which saves an empty dict and returns 0), the empty-report no-op
(lines 356-359), and the send attempt, after which the state is saved only
on success (lines 396-423) and the function returns 0 (line 441). -/
def runMain (cfg : Config) (rows : List Row) (st : StateMap) (hourUtc : ℕ) (now : ℚ)
    (dispatchOk : Bool) : RunResult :=
  if stateIsEmpty st && !cfg.firstRunFull then
    { exitCode := 0, savedState := some [], sendAttempted := false, csvRows := [], changedIds := [] }
  else
    let rowsForCsv := rowsForCsvOf cfg rows st hourUtc now
    let changedIds := changedIdsOf cfg rows st hourUtc
    if rowsForCsv.isEmpty then
      { exitCode := 0, savedState := none, sendAttempted := false, csvRows := rowsForCsv
        changedIds := changedIds }
    else if dispatchOk then
      { exitCode := 0, savedState := some (newStateOf cfg rows st hourUtc)
        sendAttempted := true, csvRows := rowsForCsv, changedIds := changedIds }
    else
      { exitCode := 0, savedState := none, sendAttempted := true, csvRows := rowsForCsv
        changedIds := changedIds }

/-- Prior status used for the status-change comparison, as the
specification words it: the stored raw status string, a missing prior
status counting as the empty string. -/
def specPriorStatus (st : StateMap) (r : Row) : String :=
  match lookupKey st (rowAid r) with
  | some e => e.status.getD ""
  | none => ""

/-- Send condition as the specification words it: (a) the asset has a
canonical instant and (prior entry absent, or prior stored instant absent,
or current instant strictly newer than the stored one), or (b) the current
non-empty status string differs from the prior stored one (missing prior
status compared as the empty string). -/
def specSendCond (st : StateMap) (r : Row) : Prop :=
  ((epochSecondsOrNone r.ts).isSome = true ∧
    (lookupKey st (rowAid r) = none
      ∨ (∃ e, lookupKey st (rowAid r) = some e ∧ e.ts = none)
      ∨ (∃ e t c, lookupKey st (rowAid r) = some e ∧ e.ts = some t ∧
          epochSecondsOrNone r.ts = some c ∧ t < c)))
  ∨ (rowCurrentStatus r ≠ "" ∧ rowCurrentStatus r ≠ specPriorStatus st r)

section StateLemmas

theorem lookupKey_setKey_self (st : StateMap) (k : String) (v : StateEntry) :
    lookupKey (setKey st k v) k = some v := by
  induction st with
  | nil => simp [setKey, lookupKey]
  | cons hd t ih =>
    obtain ⟨k', v'⟩ := hd
    by_cases hk : k' = k <;> simp [setKey, lookupKey, hk, ih]

theorem lookupKey_setKey_ne (st : StateMap) (k k' : String) (v : StateEntry)
    (h : k' ≠ k) : lookupKey (setKey st k v) k' = lookupKey st k' := by
  induction st with
  | nil =>
    simp only [setKey, lookupKey]
    rw [if_neg fun hk : k = k' => h hk.symm]
  | cons hd t ih =>
    obtain ⟨k₀, v₀⟩ := hd
    by_cases hk : k₀ = k
    · subst hk
      simp only [setKey, if_pos rfl, lookupKey]
      rw [if_neg, if_neg] <;> exact fun hk => h hk.symm
    · simp only [setKey, if_neg hk, lookupKey]
      by_cases hk' : k₀ = k' <;> simp [hk', ih]

theorem mem_keys_setKey (st : StateMap) (k k' : String) (v : StateEntry) :
    k' ∈ keys (setKey st k v) ↔ k' ∈ keys st ∨ k' = k := by
  induction st with
  | nil => simp [setKey, keys]
  | cons hd t ih =>
    obtain ⟨k₀, v₀⟩ := hd
    by_cases hk : k₀ = k
    · subst hk
      simp [setKey, keys]
      tauto
    · simp only [setKey, if_neg hk, keys, List.map_cons, List.mem_cons] at ih ⊢
      tauto

theorem fullStateUpdate_nil (st : StateMap) : fullStateUpdate st [] = st := rfl

theorem fullStateUpdate_cons (st : StateMap) (r : Row) (t : List Row) :
    fullStateUpdate st (r :: t) = fullStateUpdate (setKey st (rowAid r) (rowEntry r)) t := rfl

theorem lookupKey_fullStateUpdate_notmem (rs : List Row) (st : StateMap) (k : String)
    (h : k ∉ rs.map rowAid) : lookupKey (fullStateUpdate st rs) k = lookupKey st k := by
  induction rs generalizing st with
  | nil => rfl
  | cons r t ih =>
    simp only [List.map_cons, List.mem_cons, not_or] at h
    rw [fullStateUpdate_cons, ih _ h.2, lookupKey_setKey_ne _ _ _ _ h.1]

theorem mem_keys_fullStateUpdate (rs : List Row) (st : StateMap) (k : String) :
    k ∈ keys (fullStateUpdate st rs) ↔ k ∈ keys st ∨ k ∈ rs.map rowAid := by
  induction rs generalizing st with
  | nil => simp [fullStateUpdate_nil]
  | cons r t ih =>
    rw [fullStateUpdate_cons, ih]
    rw [mem_keys_setKey]
    simp only [List.map_cons, List.mem_cons]
    tauto

theorem lookupKey_fullStateUpdate_nodup (rs : List Row) (st : StateMap) (r : Row)
    (hnd : (rs.map rowAid).Nodup) (hr : r ∈ rs) :
    lookupKey (fullStateUpdate st rs) (rowAid r) = some (rowEntry r) := by
  induction rs generalizing st with
  | nil => cases hr
  | cons r₀ t ih =>
    simp only [List.map_cons, List.nodup_cons] at hnd
    rcases List.mem_cons.mp hr with hr₀ | hrt
    · subst hr₀
      rw [fullStateUpdate_cons,
        lookupKey_fullStateUpdate_notmem _ _ _ hnd.1, lookupKey_setKey_self]
    · exact fullStateUpdate_cons _ _ _ ▸ ih _ hnd.2 hrt

theorem incrStateUpdate_nil (st : StateMap) (ids : List String) :
    incrStateUpdate st [] ids = st := rfl

theorem incrStateUpdate_cons (st : StateMap) (r : Row) (t : List Row) (ids : List String) :
    incrStateUpdate st (r :: t) ids =
      incrStateUpdate (if ids.contains (rowAid r) then setKey st (rowAid r) (rowEntry r) else st)
        t ids := by
  unfold incrStateUpdate
  rw [List.foldl_cons]

theorem lookupKey_incrStateUpdate_notmem (rs : List Row) (st : StateMap) (ids : List String)
    (k : String) (h : k ∉ rs.map rowAid) :
    lookupKey (incrStateUpdate st rs ids) k = lookupKey st k := by
  induction rs generalizing st with
  | nil => rfl
  | cons r t ih =>
    simp only [List.map_cons, List.mem_cons, not_or] at h
    rw [incrStateUpdate_cons, ih _ h.2]
    split
    · exact lookupKey_setKey_ne _ _ _ _ h.1
    · rfl

end StateLemmas

/-- Branch-level restatement of `runMain`, used to case on the four
outcomes of a run. -/
theorem runMain_eq (cfg : Config) (rows : List Row) (st : StateMap) (hourUtc : ℕ) (now : ℚ)
    (ok : Bool) :
    runMain cfg rows st hourUtc now ok =
      (if stateIsEmpty st && !cfg.firstRunFull then
        { exitCode := 0, savedState := some [], sendAttempted := false, csvRows := [],
          changedIds := [] }
      else if (rowsForCsvOf cfg rows st hourUtc now).isEmpty then
        { exitCode := 0, savedState := none, sendAttempted := false,
          csvRows := rowsForCsvOf cfg rows st hourUtc now,
          changedIds := changedIdsOf cfg rows st hourUtc }
      else if ok then
        { exitCode := 0, savedState := some (newStateOf cfg rows st hourUtc),
          sendAttempted := true, csvRows := rowsForCsvOf cfg rows st hourUtc now,
          changedIds := changedIdsOf cfg rows st hourUtc }
      else
        { exitCode := 0, savedState := none, sendAttempted := true,
          csvRows := rowsForCsvOf cfg rows st hourUtc now,
          changedIds := changedIdsOf cfg rows st hourUtc }) := rfl

/-- Fixture rows and state used by the concrete witnesses below. -/
def wRow : Row :=
  { assetId := some "a", assetName := some "A", organization := none,
    statusRaw := some "Ok", ts := none }

/-- Fixture prior state with one unrelated key, so a run on it is not an
initial run. -/
def wState : StateMap := [("z", { ts := some 1, status := some "x" })]

/-- C1: if the notification dispatch is attempted and fails, `save_state`
is never called: the run reports no saved state, so the state file is not
rewritten and every persisted key is exactly as before the run. -/
theorem c1_no_commit_on_failure (cfg : Config) (rows : List Row) (st : StateMap)
    (hourUtc : ℕ) (now : ℚ)
    (hsend : (runMain cfg rows st hourUtc now false).sendAttempted = true) :
    (runMain cfg rows st hourUtc now false).savedState = none := by
  rw [runMain_eq] at hsend ⊢
  by_cases h1 : (stateIsEmpty st && !cfg.firstRunFull) = true
  · rw [if_pos h1] at hsend
    simp at hsend
  · rw [if_neg h1] at hsend ⊢
    by_cases h2 : (rowsForCsvOf cfg rows st hourUtc now).isEmpty = true
    · rw [if_pos h2] at hsend
      simp at hsend
    · rw [if_neg h2] at hsend ⊢
      simp

/-- Witness for C1 at a concrete run: one processed row, a non-empty prior
state, hour 21, failing dispatch. -/
theorem c1_no_commit_on_failure_witness :
    (runMain ⟨true, 0⟩ [wRow] wState 21 0 false).savedState = none :=
  c1_no_commit_on_failure ⟨true, 0⟩ [wRow] wState 21 0 (by decide)

/-- C5: the status classifier agrees, for every raw status, optional
canonical instant and clock value, with the specification's case analysis:
"in progress" (case-insensitively, checked first) gives Warning; otherwise
an instant of age at most 12 hours (negative ages included) gives Success,
age in (12, 23] gives Warning, age above 23 gives Failure; and a missing
instant gives Failure. -/
theorem c5_classifier_matches_spec (now : ℚ) (statusRaw : Option String) (dtUtc : Option ℚ) :
    computeBackupStatus now statusRaw dtUtc = specClassify now statusRaw dtUtc := by
  unfold computeBackupStatus specClassify
  by_cases hs : statusInProgress statusRaw
  · simp [hs]
  · simp only [hs, Bool.false_eq_true, if_false]
    cases dtUtc with
    | none => rfl
    | some dt =>
      dsimp only
      by_cases h1 : (now - dt) / 3600 ≤ 12 <;> by_cases h2 : (now - dt) / 3600 ≤ 23
      · rw [if_pos h1, if_neg (not_lt.mpr h2),
          if_neg (fun hc : 12 < (now - dt) / 3600 ∧ _ => absurd hc.1 (not_lt.mpr h1))]
      · exact absurd (le_trans h1 (by norm_num)) h2
      · rw [if_neg h1, if_pos ⟨not_le.mp h1, h2⟩, if_neg (not_lt.mpr h2),
          if_pos ⟨not_le.mp h1, h2⟩]
      · rw [if_neg h1, if_neg (fun hc : _ ∧ (now - dt) / 3600 ≤ 23 => absurd hc.2 h2),
          if_pos (not_le.mp h2)]

/-- C9 counterexample: at the numeric input `-2×10¹²`, whose magnitude
exceeds `1×10¹²`, the claim's magnitude rule yields epoch seconds
`-2×10⁹`, but the code's signed comparison leaves the value undivided and
the out-of-range `fromtimestamp` call makes the normalizer return `None`. -/
theorem c9_magnitude_counterexample :
    parseNumericTs (-(2 * 10 ^ 12)) = none ∧
      specMagnitudeTs (-(2 * 10 ^ 12)) = some (-(2 * 10 ^ 9)) ∧
      |(-(2 * 10 ^ 12) : ℚ)| > 10 ^ 12 := by
  refine ⟨?_, ?_, by norm_num⟩ <;> norm_num [parseNumericTs, specMagnitudeTs, fromtimestampValid]

/-- C9 amended: the threshold comparison is on the signed value, not the
magnitude.  For nonnegative numeric inputs and for all digit strings the
claim's magnitude rule holds exactly as stated; a negative numeric input is
never divided by 1000 and is interpreted directly as epoch seconds. -/
theorem c9_threshold_amended :
    (∀ x : ℚ, 0 ≤ x → parseNumericTs x = specMagnitudeTs x) ∧
      (∀ n : ℕ, parseDigitStringTs n = specMagnitudeTs (n : ℚ)) ∧
      (∀ x : ℚ, x < 0 → parseNumericTs x = if fromtimestampValid x then some x else none) := by
  refine ⟨fun x hx => ?_, fun n => ?_, fun x hx => ?_⟩
  · simp only [parseNumericTs, specMagnitudeTs]
    rw [abs_of_nonneg hx]
  · simp only [parseDigitStringTs, specMagnitudeTs]
    rw [abs_of_nonneg (by positivity : (0 : ℚ) ≤ (n : ℚ))]
  · have hng : ¬ (x > 10 ^ 12) := by linarith [show (0 : ℚ) < 10 ^ 12 by norm_num]
    simp only [parseNumericTs, if_neg hng]

/-- Witness for C9's amended theorem at the concrete inputs `5` (numeric),
`7` (digit string) and `-3` (negative numeric). -/
theorem c9_threshold_amended_witness :
    parseNumericTs 5 = specMagnitudeTs 5 ∧
      parseDigitStringTs 7 = specMagnitudeTs ((7 : ℕ) : ℚ) ∧
      parseNumericTs (-3) = (if fromtimestampValid (-3) then some (-3) else none) :=
  ⟨c9_threshold_amended.1 5 (by norm_num), c9_threshold_amended.2.1 7,
    c9_threshold_amended.2.2 (-3) (by norm_num)⟩

/-- C3 counterexample: a concrete run whose dispatch is attempted and
fails still returns 0 — `main` reaches its final `return 0` after logging
the delivery failure, so the claim's non-zero exit does not happen. -/
theorem c3_exit_code_counterexample :
    (runMain ⟨true, 0⟩ [wRow] wState 21 0 false).sendAttempted = true ∧
      (runMain ⟨true, 0⟩ [wRow] wState 21 0 false).exitCode = 0 := by decide

/-- C3 amended: a run whose dispatch is attempted and fails exits with
code 0 (not non-zero); the failure is only logged, while the state is left
untouched. -/
theorem c3_delivery_failure_exits_zero (cfg : Config) (rows : List Row) (st : StateMap)
    (hourUtc : ℕ) (now : ℚ)
    (hsend : (runMain cfg rows st hourUtc now false).sendAttempted = true) :
    (runMain cfg rows st hourUtc now false).exitCode = 0 ∧
      (runMain cfg rows st hourUtc now false).savedState = none := by
  rw [runMain_eq] at hsend ⊢
  by_cases h1 : (stateIsEmpty st && !cfg.firstRunFull) = true
  · rw [if_pos h1] at hsend
    simp at hsend
  · rw [if_neg h1] at hsend ⊢
    by_cases h2 : (rowsForCsvOf cfg rows st hourUtc now).isEmpty = true
    · rw [if_pos h2] at hsend
      simp at hsend
    · rw [if_neg h2] at hsend ⊢
      simp

/-- Witness for C3's amended theorem at a concrete failing run. -/
theorem c3_delivery_failure_exits_zero_witness :
    (runMain ⟨true, 0⟩ [wRow] wState 20 0 false).exitCode = 0 ∧
      (runMain ⟨true, 0⟩ [wRow] wState 20 0 false).savedState = none :=
  c3_delivery_failure_exits_zero ⟨true, 0⟩ [wRow] wState 20 0 (by decide)

/-- C6: with non-empty prior state the run is FULL exactly when the UTC
hour is 21 (the whole 21:00-21:59 window, since only the hour field is
compared), and with empty prior state and seeding enabled the run is FULL
at every hour; the decision is a pure function of the current clock and
state emptiness, with no persisted have-we-run-today flag. -/
theorem c6_run_mode_decision (firstRunFull : Bool) (st : StateMap) (hourUtc : ℕ) :
    (stateIsEmpty st = false →
      (computeIsFull firstRunFull (stateIsEmpty st) hourUtc = true ↔ hourUtc = 21)) ∧
      (stateIsEmpty st = true → firstRunFull = true →
        computeIsFull firstRunFull (stateIsEmpty st) hourUtc = true) := by
  constructor
  · intro he
    rw [he]
    simp [computeIsFull]
  · intro he hf
    rw [he, hf]
    simp [computeIsFull]

/-- Witness for C6 at hour 21 with a non-empty state and at hour 3 with an
empty state and seeding enabled. -/
theorem c6_run_mode_decision_witness :
    computeIsFull true (stateIsEmpty wState) 21 = true ∧
      computeIsFull true (stateIsEmpty []) 3 = true :=
  ⟨((c6_run_mode_decision true wState 21).1 (by decide)).mpr rfl,
    (c6_run_mode_decision true [] 3).2 (by decide) rfl⟩

/-- C7 counterexample: with seeding disabled and no prior state, the run
does skip sending, exits 0, and saves a state — but the saved state is the
empty mapping, and the emptiness test the next run applies to it is still
true, so the immediately following run evaluates its state as empty again,
contrary to the claim. -/
theorem c7_marker_counterexample :
    (runMain ⟨false, 0⟩ [wRow] [] 5 0 true).savedState = some ([] : StateMap) ∧
      (runMain ⟨false, 0⟩ [wRow] [] 5 0 true).sendAttempted = false ∧
      (runMain ⟨false, 0⟩ [wRow] [] 5 0 true).exitCode = 0 ∧
      stateIsEmpty ([] : StateMap) = true := by decide

/-- C7 amended: with seeding disabled and empty prior state the run sends
nothing, exits 0, and persists the empty mapping; but since the first-run
test is on the loaded mapping's contents (Python `not bool(state)`), that
marker still evaluates as empty, so subsequent runs do keep treating
themselves as first runs. -/
theorem c7_seed_disabled_amended (cfg : Config) (rows : List Row) (st : StateMap)
    (hourUtc : ℕ) (now : ℚ) (ok : Bool) (hf : cfg.firstRunFull = false)
    (he : stateIsEmpty st = true) :
    runMain cfg rows st hourUtc now ok =
      { exitCode := 0, savedState := some [], sendAttempted := false, csvRows := [],
        changedIds := [] } ∧
      stateIsEmpty ([] : StateMap) = true := by
  constructor
  · rw [runMain_eq, if_pos (by rw [he, hf]; rfl)]
  · rfl

/-- Witness for C7's amended theorem at a concrete seed-disabled run. -/
theorem c7_seed_disabled_amended_witness :
    runMain ⟨false, 0⟩ [wRow] [] 3 0 true =
      { exitCode := 0, savedState := some [], sendAttempted := false, csvRows := [],
        changedIds := [] } ∧
      stateIsEmpty ([] : StateMap) = true :=
  c7_seed_disabled_amended ⟨false, 0⟩ [wRow] [] 3 0 true rfl rfl

/-- C8: whenever the run reaches reconciliation (it is not the
seed-disabled skip) and the computed report is empty, the run exits 0
without attempting delivery and without calling `save_state`. -/
theorem c8_empty_report_noop (cfg : Config) (rows : List Row) (st : StateMap)
    (hourUtc : ℕ) (now : ℚ) (ok : Bool)
    (hskip : (stateIsEmpty st && !cfg.firstRunFull) = false)
    (hempty : rowsForCsvOf cfg rows st hourUtc now = []) :
    (runMain cfg rows st hourUtc now ok).exitCode = 0 ∧
      (runMain cfg rows st hourUtc now ok).savedState = none ∧
      (runMain cfg rows st hourUtc now ok).sendAttempted = false ∧
      (runMain cfg rows st hourUtc now ok).csvRows = [] := by
  rw [runMain_eq, if_neg (by rw [hskip]; exact Bool.false_ne_true),
    if_pos (by rw [hempty]; rfl)]
  simp [hempty]

/-- Witness for C8 at a concrete run: non-empty prior state, empty fetch,
incremental hour. -/
theorem c8_empty_report_noop_witness :
    (runMain ⟨true, 0⟩ [] wState 3 0 true).exitCode = 0 ∧
      (runMain ⟨true, 0⟩ [] wState 3 0 true).savedState = none ∧
      (runMain ⟨true, 0⟩ [] wState 3 0 true).sendAttempted = false ∧
      (runMain ⟨true, 0⟩ [] wState 3 0 true).csvRows = [] :=
  c8_empty_report_noop ⟨true, 0⟩ [] wState 3 0 true (by decide) (by decide)

/-- Fixture row with no timestamp and no status, used to exercise the FULL
state update. -/
def c2Row : Row :=
  { assetId := some "a", assetName := none, organization := none,
    statusRaw := none, ts := none }

/-- C2 counterexample: a FULL run (hour 21, non-empty prior state) over a
fetch containing only asset "a" commits a state whose key list is
`["z", "a"]` — the stale key "z", absent from the fetch, is retained, so
the committed key set does not equal the fetched identifier set. -/
theorem c2_full_reset_counterexample :
    ((runMain ⟨true, 0⟩ [c2Row] wState 21 0 true).savedState.map keys) = some ["z", "a"] ∧
      (toProcessOf ⟨true, 0⟩ [c2Row]).map rowAid = ["a"] ∧
      ("z" : String) ∉ (["a"] : List String) := by decide

/-- C2 amended: after a FULL run whose dispatch succeeds, the committed
state is the prior state upserted with a fresh entry for every fetched
asset: its key set is the union of the prior keys and the fetched ids,
keys absent from the fetch keep their prior entries (they are not
dropped), and — when the fetched ids are pairwise distinct — every fetched
asset maps to its fresh entry. -/
theorem c2_full_run_upserts (cfg : Config) (rows : List Row) (st : StateMap)
    (hourUtc : ℕ) (now : ℚ)
    (hfull : computeIsFull cfg.firstRunFull (stateIsEmpty st) hourUtc = true)
    (hsend : (runMain cfg rows st hourUtc now true).sendAttempted = true) :
    (runMain cfg rows st hourUtc now true).savedState =
        some (fullStateUpdate st (toProcessOf cfg rows)) ∧
      (∀ k, k ∈ keys (fullStateUpdate st (toProcessOf cfg rows)) ↔
        k ∈ keys st ∨ k ∈ (toProcessOf cfg rows).map rowAid) ∧
      (∀ k, k ∉ (toProcessOf cfg rows).map rowAid →
        lookupKey (fullStateUpdate st (toProcessOf cfg rows)) k = lookupKey st k) ∧
      (((toProcessOf cfg rows).map rowAid).Nodup →
        ∀ r ∈ toProcessOf cfg rows,
          lookupKey (fullStateUpdate st (toProcessOf cfg rows)) (rowAid r) =
            some (rowEntry r)) := by
  refine ⟨?_, fun k => mem_keys_fullStateUpdate _ _ _,
    fun k hk => lookupKey_fullStateUpdate_notmem _ _ _ hk,
    fun hnd r hr => lookupKey_fullStateUpdate_nodup _ _ _ hnd hr⟩
  rw [runMain_eq] at hsend ⊢
  by_cases h1 : (stateIsEmpty st && !cfg.firstRunFull) = true
  · rw [if_pos h1] at hsend
    simp at hsend
  · rw [if_neg h1] at hsend ⊢
    by_cases h2 : (rowsForCsvOf cfg rows st hourUtc now).isEmpty = true
    · rw [if_pos h2] at hsend
      simp at hsend
    · rw [if_neg h2]
      simp only [if_pos rfl]
      simp only [newStateOf, hfull, if_true]

/-- Witness for C2's amended theorem at a concrete successful FULL run. -/
theorem c2_full_run_upserts_witness :
    (runMain ⟨true, 0⟩ [c2Row] wState 21 0 true).savedState =
      some (fullStateUpdate wState (toProcessOf ⟨true, 0⟩ [c2Row])) :=
  (c2_full_run_upserts ⟨true, 0⟩ [c2Row] wState 21 0 (by decide) (by decide)).1

/-- Fixture row for the monotonic-acceptance witness: asset "a" observed at
canonical instant 9. -/
def wMonoRow : Row :=
  { assetId := some "a", assetName := none, organization := none,
    statusRaw := none, ts := some 9 }

/-- C4: the incremental `send_flag` is true exactly under the
specification's condition — (a) a canonical instant with prior entry
absent, prior instant absent, or a strictly newer current instant, or (b) a
non-empty current status differing from the stored one (missing stored
status compared as empty) — and in particular acceptance is monotone: an
asset last reported at instant T1 and now observed at T2 > T1 is sent. -/
theorem c4_incremental_send_iff (st : StateMap) (r : Row) :
    (sendFlag st r = true ↔ specSendCond st r) ∧
      (∀ (t1 t2 : ℤ) (s0 : Option String),
        lookupKey st (rowAid r) = some { ts := some t1, status := s0 } →
        epochSecondsOrNone r.ts = some t2 → t1 < t2 → sendFlag st r = true) ∧
      (∀ (cfg : Config) (rows : List Row) (hourUtc : ℕ) (now : ℚ),
        computeIsFull cfg.firstRunFull (stateIsEmpty st) hourUtc = false →
        rowsForCsvOf cfg rows st hourUtc now =
            buildCsvRows now ((toProcessOf cfg rows).filter (sendFlag st)) ∧
          changedIdsOf cfg rows st hourUtc =
            ((toProcessOf cfg rows).filter (sendFlag st)).map rowAid) := by
  refine ⟨?_, ?_, fun cfg rows hourUtc now hmode => ?_⟩
  rotate_right
  · unfold rowsForCsvOf changedIdsOf incrementalChanged
    rw [hmode]
    simp
  · unfold sendFlag specSendCond specPriorStatus
    rcases hL : lookupKey st (rowAid r) with _ | e
    · rcases hc : epochSecondsOrNone r.ts with _ | c <;>
        simp [hc, hL, bne_iff_ne]
    · rcases he : e.ts with _ | t <;> rcases hc : epochSecondsOrNone r.ts with _ | c <;>
        simp [hc, hL, he, bne_iff_ne]
  · intro t1 t2 s0 hL hc hlt
    unfold sendFlag
    rw [hL, hc]
    simp [hlt]

/-- Witness for C4's monotonic part: prior state has asset "a" at instant
5, the current fetch observes instant 9, and the flag is set. -/
theorem c4_incremental_send_iff_witness :
    sendFlag [("a", { ts := some 5, status := none })] wMonoRow = true :=
  (c4_incremental_send_iff [("a", { ts := some 5, status := none })] wMonoRow).2.1
    5 9 none (by decide) (by decide) (by decide)

/-- C10: with `SAMPLE_COUNT = n > 0` only the first `n` rows of the data
file are processed: the run is observably identical to a run over the
truncated row list with sampling off, and every state key that is not among
the ids of those first `n` rows is left with exactly its prior entry (in
FULL and INCREMENTAL modes alike) — so a sampled FULL run does not re-seed
the whole fleet. -/
theorem c10_sample_count_limits (cfg : Config) (rows : List Row) (st : StateMap)
    (hourUtc : ℕ) (now : ℚ) (ok : Bool) (n : ℕ)
    (hsc : cfg.sampleCount = (n : ℤ)) (hpos : 0 < n) :
    toProcessOf cfg rows = rows.take n ∧
      runMain cfg rows st hourUtc now ok =
        runMain { firstRunFull := cfg.firstRunFull, sampleCount := 0 } (rows.take n) st
          hourUtc now ok ∧
      (∀ k s, k ∉ (rows.take n).map rowAid →
        (runMain cfg rows st hourUtc now ok).savedState = some s →
        lookupKey s k = lookupKey st k) := by
  have hne : cfg.sampleCount ≠ 0 := by
    rw [hsc]
    exact_mod_cast hpos.ne'
  have htp1 : toProcessOf cfg rows = rows.take n := by
    unfold toProcessOf pySlice
    rw [if_neg hne, hsc, if_pos (by positivity), Int.toNat_natCast]
  have htp2 :
      toProcessOf { firstRunFull := cfg.firstRunFull, sampleCount := 0 } (rows.take n) =
        rows.take n := by
    unfold toProcessOf
    rw [if_pos rfl]
  refine ⟨htp1, ?_, ?_⟩
  · rw [runMain_eq, runMain_eq]
    simp only [rowsForCsvOf, changedIdsOf, newStateOf, htp1, htp2]
  · intro k s hk hs
    rw [runMain_eq] at hs
    by_cases h1 : (stateIsEmpty st && !cfg.firstRunFull) = true
    · rw [if_pos h1] at hs
      have hst : st = [] := by
        have := (Bool.and_eq_true _ _).mp h1
        exact List.isEmpty_iff.mp this.1
      have hsz : s = [] := by
        simpa using hs.symm
      rw [hst, hsz]
    · rw [if_neg h1] at hs
      by_cases h2 : (rowsForCsvOf cfg rows st hourUtc now).isEmpty = true
      · rw [if_pos h2] at hs
        simp at hs
      · rw [if_neg h2] at hs
        cases ok with
        | false =>
          simp at hs
        | true =>
          rw [if_pos rfl] at hs
          dsimp only at hs
          rw [Option.some_inj] at hs
          subst hs
          have hk' : k ∉ (toProcessOf cfg rows).map rowAid := by
            rw [htp1]
            exact hk
          unfold newStateOf
          split
          · exact lookupKey_fullStateUpdate_notmem _ _ _ hk'
          · exact lookupKey_incrStateUpdate_notmem _ _ _ _ hk'

/-- Witness for C10 at a concrete two-row fetch with `SAMPLE_COUNT = 1`. -/
theorem c10_sample_count_limits_witness :
    toProcessOf ⟨true, (1 : ℤ)⟩ [wRow, c2Row] = [wRow, c2Row].take 1 :=
  (c10_sample_count_limits ⟨true, 1⟩ [wRow, c2Row] wState 3 0 true 1 (by decide)
    (by decide)).1

end UniView
